import Mathlib

/-!
Shallow embedding of the EXIF-frame pipeline and preset persistence of the
repository yuru-sha/davinci-resolve-scripts.

The embedded code lives in
  src/scripts/add_exif_frame_dv.py   (metadata extraction, label formatting,
                                      frame compositing, output writing)
  src/scripts/set_broadcast_format_dv.py  (custom preset persistence)

Modelling conventions:
* Python floats are modelled in exact rational arithmetic over the rationals.
  All rational operations used in computable paths are written with
  Rat.divInt and mkRat so that the kernel can evaluate them; bridge lemmas
  relate them to the Mathlib field operations.  At every concrete input used
  in a theorem below the IEEE-double computation of the source agrees with
  the exact rational value.
* Python int() on a nonnegative float truncates toward zero, as does pyInt.
* The interaction with the file system, the image decoders (PIL, rawpy) and
  the exifread tag reader is abstracted into a World record of oracles; a
  decoder that raises is an oracle returning Except.error.
* Text rendering (font discovery, pixel drawing) has no effect on any output
  the claims mention and is not modelled.
-/

namespace DVScripts

/-- Exact product of two rationals, written with Rat.divInt so that the
kernel can evaluate it on literals. -/
def ratMul (a b : ℚ) : ℚ := Rat.divInt (a.num * b.num) ((a.den : ℤ) * (b.den : ℤ))

/-- Exact reciprocal of a rational, written with Rat.divInt. -/
def ratInv (a : ℚ) : ℚ := Rat.divInt (a.den : ℤ) a.num

/-- Exact quotient of two rationals, written with Rat.divInt. -/
def ratDiv (a b : ℚ) : ℚ := ratMul a (ratInv b)

/-- Python int() applied to a float value: truncation toward zero. -/
def pyInt (q : ℚ) : ℤ := Int.tdiv q.num q.den

/-- Characters stripped by Python str.strip() with no argument. -/
def isPyWs (c : Char) : Bool :=
  c == ' ' || c == '\t' || c == '\n' || c == '\r' || c == '\x0b' || c == '\x0c'

/-- Python str.strip(): drop whitespace from both ends. -/
def pyStripL (l : List Char) : List Char :=
  ((l.dropWhile isPyWs).reverse.dropWhile isPyWs).reverse

/-- Python str.strip() on a String. -/
def pyStrip (s : String) : String := ⟨pyStripL s.data⟩

/-- Helper for Python str.split() with no argument: split on whitespace
runs, dropping empty pieces.  The first argument accumulates the current
word in reverse. -/
def splitWsAux (acc : List Char) : List Char → List (List Char)
  | [] => if acc.isEmpty then [] else [acc.reverse]
  | c :: cs =>
    if isPyWs c then
      if acc.isEmpty then splitWsAux [] cs else acc.reverse :: splitWsAux [] cs
    else splitWsAux (c :: acc) cs

/-- Python str.split() with no argument. -/
def splitWsL (l : List Char) : List (List Char) := splitWsAux [] l

/-- Python str.title(): uppercase each letter that does not follow a letter,
lowercase every other letter.  The Boolean argument records whether the
previous character was a letter. -/
def pyTitleL : Bool → List Char → List Char
  | _, [] => []
  | prev, c :: cs =>
    if c.isAlpha then (if prev then c.toLower else c.toUpper) :: pyTitleL true cs
    else c :: pyTitleL false cs

/-- Lowercase a character list (Python str.lower() for the ASCII data that
occurs here). -/
def lowerList (l : List Char) : List Char := l.map Char.toLower

/-- Python str.lower() on a String. -/
def strLower (s : String) : String := ⟨lowerList s.data⟩

/-- Does pat occur at the start of the list, comparing characters with eqc? -/
def startsWithBy (eqc : Char → Char → Bool) : List Char → List Char → Bool
  | [], _ => true
  | _ :: _, [] => false
  | p :: ps, c :: cs => eqc p c && startsWithBy eqc ps cs

/-- Python substring test (the in operator on str), generalised over the
character comparison. -/
def isSubstrBy (eqc : Char → Char → Bool) (pat : List Char) : List Char → Bool
  | [] => pat.isEmpty
  | c :: cs => startsWithBy eqc pat (c :: cs) || isSubstrBy eqc pat cs

/-- Case-sensitive character equality. -/
def charEq (c d : Char) : Bool := c == d

/-- Case-insensitive character equality, as re.IGNORECASE compares the
ASCII strings appearing here. -/
def charEqCI (c d : Char) : Bool := c.toLower == d.toLower

/-- The scan of removeAllBy, structurally recursive on a fuel argument so
that the kernel can evaluate it; the wrapper below supplies the input
length as fuel, which the scan never exhausts because each step consumes
at least one character. -/
def removeAllByF (eqc : Char → Char → Bool) (pat : List Char) : ℕ → List Char → List Char
  | _, [] => []
  | 0, l => l
  | fuel + 1, c :: cs =>
    if pat.isEmpty then c :: removeAllByF eqc pat fuel cs
    else if startsWithBy eqc pat (c :: cs) then
      removeAllByF eqc pat fuel (cs.drop (pat.length - 1))
    else c :: removeAllByF eqc pat fuel cs

/-- Remove every non-overlapping occurrence of pat, scanning left to right,
comparing characters with eqc.  This is re.sub(pattern, empty, s) for a
literal pattern, and str.replace(pat, empty) for the case-sensitive eqc.
An empty pattern removes nothing (re.sub with an empty literal pattern and
empty replacement returns the string unchanged). -/
def removeAllBy (eqc : Char → Char → Bool) (pat l : List Char) : List Char :=
  removeAllByF eqc pat l.length l

/-- The scan of countOccBy, structurally recursive on a fuel argument. -/
def countOccByF (eqc : Char → Char → Bool) (pat : List Char) : ℕ → List Char → ℕ
  | _, [] => 0
  | 0, _ => 0
  | fuel + 1, c :: cs =>
    if pat.isEmpty then countOccByF eqc pat fuel cs
    else if startsWithBy eqc pat (c :: cs) then
      1 + countOccByF eqc pat fuel (cs.drop (pat.length - 1))
    else countOccByF eqc pat fuel cs

/-- Count the non-overlapping occurrences of pat, scanning left to right as
removeAllBy does. -/
def countOccBy (eqc : Char → Char → Bool) (pat l : List Char) : ℕ :=
  countOccByF eqc pat l.length l

/-- Index of the last occurrence of a character, if any. -/
def lastIdxOf (c : Char) : List Char → Option ℕ
  | [] => none
  | x :: xs =>
    match lastIdxOf c xs with
    | some i => some (i + 1)
    | none => if x == c then some 0 else none

/-- os.path.splitext for POSIX paths, on character lists: split off the
extension at the last dot of the basename, except when every character of
the basename before that dot is itself a dot (hidden files like .bashrc
have no extension). -/
def splitextL (p : List Char) : List Char × List Char :=
  let sepIdx : ℤ := ((lastIdxOf '/' p).map (Int.ofNat)).getD (-1)
  let dotIdx : ℤ := ((lastIdxOf '.' p).map (Int.ofNat)).getD (-1)
  if dotIdx > sepIdx then
    let fnameStart : ℕ := (sepIdx + 1).toNat
    if ((p.drop fnameStart).take (dotIdx.toNat - fnameStart)).all (· == '.') then (p, [])
    else (p.take dotIdx.toNat, p.drop dotIdx.toNat)
  else (p, [])

/-- os.path.splitext on Strings. -/
def splitext (s : String) : String × String :=
  (⟨(splitextL s.data).1⟩, ⟨(splitextL s.data).2⟩)

/-- Digits of the fractional part n/d (with 0 ≤ n < d), at most fuel many,
stopping when the expansion terminates.  Python prints the shortest decimal
that round-trips through the IEEE double; on the terminating decimals that
appear in this repository the two agree. -/
def fracDigitsL (d : ℕ) : ℕ → ℕ → List Char
  | 0, _ => []
  | _ + 1, 0 => []
  | fuel + 1, n => Nat.digitChar (n * 10 / d) :: fracDigitsL d fuel (n * 10 % d)

/-- Python str()/format of a float value, modelled on the exact rational:
integral values print with a trailing .0 as Python does, other values print
their decimal expansion (up to 17 digits, the precision of repr). -/
def pyFloatRepr (q : ℚ) : String :=
  let sign : String := if q.num < 0 then "-" else ""
  let na : ℕ := q.num.natAbs
  if na % q.den = 0 then sign ++ toString (na / q.den) ++ ".0"
  else sign ++ toString (na / q.den) ++ "." ++ ⟨fracDigitsL q.den 17 (na % q.den)⟩

/-- A Python scalar value as it flows through the EXIF dictionaries:
an int, a float (modelled as an exact rational), or a string. -/
inductive PyVal where
  | int (n : ℤ)
  | float (q : ℚ)
  | str (s : String)
deriving DecidableEq, Repr

/-- Python truthiness of the scalars above: zero and the empty string are
falsy, everything else is truthy. -/
def PyVal.truthy : PyVal → Bool
  | .int n => n != 0
  | .float q => decide (q ≠ 0)
  | .str s => s != ""

/-- Python str() / f-string rendering of a scalar. -/
def PyVal.pyStr : PyVal → String
  | .int n => toString n
  | .float q => pyFloatRepr q
  | .str s => s

/-- Parse a run of decimal digits. -/
def parseDigits (l : List Char) : Option ℕ :=
  if l.isEmpty then none
  else if l.all Char.isDigit then
    some (l.foldl (fun acc c => acc * 10 + (c.toNat - 48)) 0)
  else none

/-- Python int() applied to a string: optional sign and decimal digits,
surrounding whitespace ignored; anything else raises (returns none). -/
def pyIntOfString (s : String) : Option ℤ :=
  match pyStripL s.data with
  | '-' :: rest => (parseDigits rest).map (fun n => -(n : ℤ))
  | '+' :: rest => (parseDigits rest).map (fun n => (n : ℤ))
  | l => (parseDigits l).map (fun n => (n : ℤ))

/-- Python int() applied to a scalar; none models the call raising. -/
def pyIntOf : PyVal → Option ℤ
  | .int n => some n
  | .float q => some (pyInt q)
  | .str s => pyIntOfString s

/-- Unsigned decimal literal, with an optional fractional part. -/
def pyFloatDigits (l : List Char) : Option ℚ :=
  let ip := l.takeWhile (· != '.')
  match l.dropWhile (· != '.') with
  | [] => (parseDigits ip).map (fun n => mkRat n 1)
  | _ :: frac =>
    match parseDigits ip, parseDigits frac with
    | some i, some f => some (mkRat (i * 10 ^ frac.length + f) (10 ^ frac.length))
    | _, _ => none

/-- Python float() applied to a string: optional sign, digits, optional
fractional digits; anything else raises (returns none). -/
def pyFloatOfString (s : String) : Option ℚ :=
  match pyStripL s.data with
  | '-' :: rest => (pyFloatDigits rest).map (fun q => -q)
  | '+' :: rest => pyFloatDigits rest
  | l => pyFloatDigits l

/-- Python float() applied to a scalar; none models the call raising. -/
def pyFloatOf : PyVal → Option ℚ
  | .int n => some (mkRat n 1)
  | .float q => some q
  | .str s => pyFloatOfString s

/-- Numeric view of a scalar for the arithmetic in format_shutter_speed.
A string there would raise a TypeError in the source; that path is never
exercised and is modelled as zero. -/
def pyNumOf : PyVal → ℚ
  | .int n => mkRat n 1
  | .float q => q
  | .str _ => 0

/-- A key of the metadata dictionary built by get_exif_data_pillow: the
decoded tag name when the tag id is known to the Pillow table, otherwise
the numeric tag id itself (ExifTags.TAGS.get(tag, tag)). -/
inductive PyKey where
  | str (s : String)
  | int (n : ℕ)
deriving DecidableEq, Repr

/-- A Python dict with the insertion-ordered association-list semantics the
scripts rely on: assignment to a present key updates it in place,
assignment to a fresh key appends. -/
abbrev PyDict := List (PyKey × PyVal)

/-- Does the association list hold the key? -/
def assocHas {α β : Type} [DecidableEq α] (l : List (α × β)) (k : α) : Bool :=
  l.any (fun kv => decide (kv.1 = k))

/-- First value stored under the key, if any. -/
def assocGet {α β : Type} [DecidableEq α] (l : List (α × β)) (k : α) : Option β :=
  (l.find? (fun kv => decide (kv.1 = k))).map (·.2)

/-- Assignment d[k] = v of a Python dict. -/
def assocSet {α β : Type} [DecidableEq α] (l : List (α × β)) (k : α) (v : β) : List (α × β) :=
  if assocHas l k then l.map (fun kv => if kv.1 = k then (k, v) else kv)
  else l ++ [(k, v)]

/-- Lookup d.get(k) of a string key, as the formatter reads the dict. -/
def dictGetOpt (d : PyDict) (k : String) : Option PyVal := assocGet d (.str k)

/-- Lookup d.get(k, default) of a string key. -/
def dictGet (d : PyDict) (k : String) (dflt : PyVal) : PyVal := (dictGetOpt d k).getD dflt

/-- The keys of a dict, in insertion order. -/
def dictKeys (d : PyDict) : List PyKey := d.map (·.1)

/-- The fragment of the Pillow tag-name table ExifTags.TAGS relevant to
this repository: the tags the formatter reads, plus common tags (such as
Orientation and DateTime) that image files routinely carry.  Any other tag
id stays numeric, exactly as ExifTags.TAGS.get(tag, tag) leaves unknown
ids untouched. -/
def ExifTags_TAGS : ℕ → Option String
  | 271 => some "Make"
  | 272 => some "Model"
  | 274 => some "Orientation"
  | 306 => some "DateTime"
  | 33434 => some "ExposureTime"
  | 33437 => some "FNumber"
  | 34855 => some "ISOSpeedRatings"
  | 37386 => some "FocalLength"
  | 42036 => some "LensModel"
  | _ => none

/-- ExifTags.TAGS.get(tag, tag): decode a numeric tag id to a key. -/
def decodeTag (t : ℕ) : PyKey := ((ExifTags_TAGS t).map PyKey.str).getD (.int t)

/-- A decoded raster image as the pipeline sees it: pixel dimensions, the
tag items of image.getexif(), the items of the legacy image._getexif()
call (none models that call raising), and the embedded metadata bytes of
image.info.get, modelled opaquely as a string. -/
structure PillowImage where
  width : ℕ
  height : ℕ
  getexif : List (ℕ × PyVal)
  getexifLegacy : Option (List (ℕ × PyVal))
  infoExif : Option String
deriving DecidableEq, Repr

/-- Insert decoded tag items into the dictionary, in order
(the loop for tag, value in info.items()). -/
def insertTags (d : PyDict) (items : List (ℕ × PyVal)) : PyDict :=
  items.foldl (fun d tv => assocSet d (decodeTag tv.1) tv.2) d

/-- get_exif_data_pillow of src/scripts/add_exif_frame_dv.py lines 41-56:
decode image.getexif() into a dict; when the result has no truthy FNumber,
additionally merge the legacy image._getexif() items, swallowing any
exception of the legacy call. -/
def get_exif_data_pillow (image : PillowImage) : PyDict :=
  if image.getexif.isEmpty then []
  else
    let exif_data := insertTags [] image.getexif
    if ((dictGetOpt exif_data "FNumber").map PyVal.truthy).getD false then exif_data
    else
      match image.getexifLegacy with
      | none => exif_data
      | some info_legacy =>
        if info_legacy.isEmpty then exif_data else insertTags exif_data info_legacy

/-- An exifread tag object: its printable form str(tag), and its first
rational component tag.values with numerator and denominator when the tag
carries rationals (the hasattr values check). -/
structure RawTag where
  printable : String
  ratio : Option (ℤ × ℤ)
deriving DecidableEq, Repr

/-- The tag dictionary returned by exifread.process_file, in file order. -/
abbrev RawTags := List (String × RawTag)

/-- get_tag_val of get_exif_data_raw: the first tag whose key contains any
of the search keys as a substring. -/
def get_tag_val (tags : RawTags) (search_keys : List String) : Option RawTag :=
  tags.findSome? (fun kv =>
    if search_keys.any (fun sk => isSubstrBy charEq sk.data kv.1.data) then some kv.2
    else none)

/-- One string-valued block of get_exif_data_raw (for example lines 70-71):
when the searched tag was found, store its printable form under the key. -/
def rawSetStr (d : PyDict) (t? : Option RawTag) (key : String) : PyDict :=
  match t? with
  | some t => assocSet d (.str key) (.str t.printable)
  | none => d

/-- One rational-valued block of get_exif_data_raw (for example lines
76-79): when the searched tag was found and carries rational values, store
the first one as a float under the key. -/
def rawSetRatio (d : PyDict) (t? : Option RawTag) (key : String) : PyDict :=
  match t? with
  | some t =>
    match t.ratio with
    | some nd => assocSet d (.str key) (.float (Rat.divInt nd.1 nd.2))
    | none => d
  | none => d

/-- The exposure-time block of get_exif_data_raw lines 86-93: a unit
fraction additionally records its 1/N display string. -/
def rawSetExposure (d : PyDict) (t? : Option RawTag) : PyDict :=
  match t? with
  | some t =>
    match t.ratio with
    | some nd =>
      if nd.1 = 1 ∧ nd.2 > 1 then
        assocSet (assocSet d (.str "ExposureTimeString") (.str ("1/" ++ toString nd.2)))
          (.str "ExposureTime") (.float (Rat.divInt 1 nd.2))
      else assocSet d (.str "ExposureTime") (.float (Rat.divInt nd.1 nd.2))
    | none => d
  | none => d

/-- get_exif_data_raw of src/scripts/add_exif_frame_dv.py lines 58-94,
applied to an already-read tag dictionary (the surrounding
open/process_file try-block is modelled at the World level). -/
def get_exif_data_raw_core (tags : RawTags) : PyDict :=
  let data : PyDict := []
  let data := rawSetStr data (get_tag_val tags ["Image Model", "Model"]) "Model"
  let data := rawSetStr data (get_tag_val tags ["Image Make", "Make"]) "Make"
  let data := rawSetStr data
    (get_tag_val tags ["EXIF LensModel", "LensModel", "LensInfo", "Lens"]) "LensModel"
  let data := rawSetRatio data (get_tag_val tags ["EXIF FocalLength", "FocalLength"]) "FocalLength"
  let data := rawSetRatio data
    (get_tag_val tags ["EXIF FNumber", "FNumber", "ApertureValue"]) "FNumber"
  let data := rawSetStr data
    (get_tag_val tags ["EXIF ISOSpeedRatings", "ISOSpeed", "ISO"]) "ISOSpeedRatings"
  rawSetExposure data (get_tag_val tags ["EXIF ExposureTime", "ExposureTime", "ShutterSpeedValue"])

/-- format_shutter_speed of src/scripts/add_exif_frame_dv.py lines 96-103:
prefer a truthy precomputed display string; otherwise the empty string for
zero or negative speeds, 1/int(1/speed) for speeds below one second, and
plain float formatting for speeds of one second or more. -/
def format_shutter_speed (speed : ℚ) (speed_str : Option String) : String :=
  if ((speed_str.map (fun s => s != "")).getD false) then speed_str.getD ""
  else if speed = 0 then ""
  else if speed < 0 then ""
  else if speed < 1 then
    if speed > 0 then "1/" ++ toString (pyInt (ratDiv 1 speed)) else ""
  else pyFloatRepr speed

/-- The corporate-suffix noise tokens stripped from the model string. -/
def junkTokens : List String := ["CORPORATION", "Corporation", "Inc.", "Ltd."]

/-- The model-cleaning steps of create_exif_string lines 108-118: remove
every occurrence of the make (case-insensitively), then of its first word,
then the junk tokens (case-sensitively), stripping whitespace after each
removal. -/
def clean_model_strip (raw_model make : String) : String :=
  let model_clean := raw_model
  let model_clean :=
    if make ≠ "" then
      let m1 := pyStrip ⟨removeAllBy charEqCI make.data model_clean.data⟩
      let first_word : String := ⟨(splitWsL make.data).headD []⟩
      if first_word ≠ "" then pyStrip ⟨removeAllBy charEqCI first_word.data m1.data⟩
      else m1
    else model_clean
  junkTokens.foldl
    (fun m junk => pyStrip ⟨removeAllBy charEq junk.data m.data⟩) model_clean

/-- The cleaned model with the restore of line 119: when nothing remains
after stripping, the original model string comes back. -/
def clean_model (raw_model make : String) : String :=
  if clean_model_strip raw_model make = "" then raw_model
  else clean_model_strip raw_model make

/-- The stripped Model value, with the Unknown Camera default (line 106). -/
def raw_model_of (exif : PyDict) : String :=
  pyStrip (dictGet exif "Model" (.str "Unknown Camera")).pyStr

/-- The stripped Make value (line 107). -/
def make_of (exif : PyDict) : String :=
  pyStrip (dictGet exif "Make" (.str "")).pyStr

/-- simple_make of line 120: the title-cased first word of the make. -/
def simple_make_of (make : String) : String :=
  if make ≠ "" then ⟨pyTitleL false ((splitWsL make.data).headD [])⟩ else ""

/-- camera_name of lines 121-123: prepend the simple make when it does not
already occur (case-insensitively) in the cleaned model. -/
def camera_name_of (simple_make model_clean : String) : String :=
  if simple_make ≠ "" ∧
      isSubstrBy charEq (lowerList simple_make.data) (lowerList model_clean.data) = false then
    simple_make ++ " " ++ model_clean
  else model_clean

/-- lens of lines 124-125: the stripped LensModel value, rereading with the
LensInfo fallback default when the first read strips to empty. -/
def lens_of (exif : PyDict) : String :=
  let lens := pyStrip (dictGet exif "LensModel" (.str "")).pyStr
  if lens = "" then
    pyStrip (dictGet exif "LensModel" (dictGet exif "LensInfo" (.str ""))).pyStr
  else lens

/-- The camera/lens identification line of create_exif_string
(lines 105-127). -/
def camera_top_text (exif : PyDict) : String :=
  let make := make_of exif
  let camera_name :=
    camera_name_of (simple_make_of make) (clean_model (raw_model_of exif) make)
  let lens := lens_of exif
  if lens ≠ "" ∧ lens ≠ camera_name then camera_name ++ " / " ++ lens
  else camera_name

/-- The focal-length token of line 133-134: int() of a truthy value with mm
appended; when int() raises, the raw rendering with mm appended. -/
def fl_str_of (v : PyVal) : String :=
  if v.truthy then
    match pyIntOf v with
    | some n => toString n ++ "mm"
    | none => v.pyStr ++ "mm"
  else ""

/-- The aperture token of lines 135-136. -/
def fn_str_of (v : PyVal) : String :=
  if v.truthy then "f/" ++ v.pyStr else ""

/-- The shutter-speed token of line 137. -/
def ss_str_of (et : PyVal) (ets : Option PyVal) : String :=
  if et.truthy || ((ets.map PyVal.truthy).getD false) then
    format_shutter_speed (pyNumOf et) (ets.map PyVal.pyStr) ++ "s"
  else ""

/-- The ISO token of line 138. -/
def iso_str_of (v : PyVal) : String :=
  if v.truthy then "ISO " ++ v.pyStr else ""

/-- The settings summary line of create_exif_string (lines 128-140): the
four tokens, dropping empty ones, joined by the separator. -/
def settings_line (exif : PyDict) : String :=
  String.intercalate " | "
    (([fl_str_of (dictGet exif "FocalLength" (.int 0)),
       fn_str_of (dictGet exif "FNumber" (.int 0)),
       ss_str_of (dictGet exif "ExposureTime" (.int 0)) (dictGetOpt exif "ExposureTimeString"),
       iso_str_of (dictGet exif "ISOSpeedRatings" (.int 0))]).filter (· ≠ ""))

/-- create_exif_string of src/scripts/add_exif_frame_dv.py lines 105-141. -/
def create_exif_string (exif : PyDict) : String × String :=
  (camera_top_text exif, settings_line exif)

/-- The text-defaulting step of add_frame lines 171-173: compute both lines
from the metadata, substituting the No Exif Data sentinel for the settings
line only when the camera line is the Unknown Camera sentinel and the
settings line is empty. -/
def add_frame_texts (exif : PyDict) : String × String :=
  let cs := create_exif_string exif
  if cs.1 = "Unknown Camera" ∧ cs.2 = "" then (cs.1, "No Exif Data") else cs

/-- An exception value carried by a raising library call. -/
structure PyError where
  msg : String
deriving DecidableEq, Repr

/-- The environment of one pipeline invocation: the image decoders and the
raw tag reader, as oracles from file paths.  An oracle returning
Except.error models the corresponding library call raising; rawTags
returning none models exifread.process_file (or the open) raising. -/
structure World where
  decodeRaster : String → Except PyError PillowImage
  transposed : PillowImage → Option PillowImage
  decodeRaw : String → Except PyError PillowImage
  rawTags : String → Option RawTags

/-- get_exif_data_raw of lines 58-94 at the World level: the try-block
around open and process_file returns an empty dict on any failure. -/
def get_exif_data_raw (w : World) (file_path : String) : PyDict :=
  match w.rawTags file_path with
  | none => []
  | some tags => get_exif_data_raw_core tags

/-- The closed set of raster extensions handled by the Pillow path. -/
def rasterExts : List String := [".jpg", ".jpeg", ".png", ".tif", ".tiff"]

/-- The closed set of raw-sensor extensions handled by the rawpy path. -/
def rawExts : List String := [".arw", ".cr2", ".cr3", ".nef", ".dng", ".raf", ".orf"]

/-- open_image of src/scripts/add_exif_frame_dv.py lines 143-161.  On the
raster path Image.open is not inside a try-block, so a decoder error
propagates; the exif_transpose call is inside one, so its failure keeps
the undecoded orientation.  The raw path swallows decoder errors and
returns an absent image; unsupported extensions return an absent image
and an empty dict. -/
def open_image (w : World) (file_path : String) : Except PyError (Option PillowImage × PyDict) :=
  let ext := strLower (splitext file_path).2
  if ext ∈ rasterExts then
    match w.decodeRaster file_path with
    | .error e => .error e
    | .ok img =>
      let exif := get_exif_data_pillow img
      let img := (w.transposed img).getD img
      .ok (some img, exif)
  else if ext ∈ rawExts then
    match w.decodeRaw file_path with
    | .error _ => .ok (none, [])
    | .ok img => .ok (some img, get_exif_data_raw w file_path)
  else .ok (none, [])

/-- The user_options dictionary assembled by the dialog: the two text
overrides (present together, keyed by camera_text), and the optional
border-design entries read with .get. -/
structure UserOptions where
  texts : Option (String × String)
  border_color : Option String
  border_size : Option PyVal
  polaroid_style : Option Bool
deriving Repr

/-- The border-ratio computation of add_frame lines 178 and 186-189:
default 0.05; with options, float(get(border_size, 5)) / 100, keeping the
default when the float conversion raises. -/
def border_ratio_of (user_options : Option UserOptions) : ℚ :=
  match user_options with
  | none => mkRat 5 100
  | some uo =>
    match uo.border_size with
    | none => mkRat 5 100
    | some v =>
      match pyFloatOf v with
      | some q => ratDiv q (mkRat 100 1)
      | none => mkRat 5 100

/-- The polaroid flag of lines 179 and 190: default true; with options,
get(polaroid_style, True). -/
def polaroid_of (user_options : Option UserOptions) : Bool :=
  match user_options with
  | none => true
  | some uo => uo.polaroid_style.getD true

/-- The border color of lines 175 and 182-183. -/
def border_color_of (user_options : Option UserOptions) : ℕ × ℕ × ℕ :=
  match user_options with
  | none => (255, 255, 255)
  | some uo => if uo.border_color = some "Black" then (0, 0, 0) else (255, 255, 255)

/-- The format Pillow derives from the extension of the save path; the
fragment of its registry for the extensions occurring here. -/
def formatFromExt (ext : String) : Option String :=
  if ext = ".jpg" ∨ ext = ".jpeg" then some "JPEG"
  else if ext = ".png" then some "PNG"
  else if ext = ".tif" ∨ ext = ".tiff" then some "TIFF"
  else none

/-- Everything observable about the single save call of add_frame line 237:
the derived output path, the encoder and quality, the canvas geometry, the
two label texts, and the metadata passthrough. -/
structure SaveRecord where
  path : String
  format : Option String
  quality : ℕ
  borderColor : ℕ × ℕ × ℕ
  borderUniform : ℤ
  borderBottom : ℤ
  canvasW : ℤ
  canvasH : ℤ
  cameraText : String
  settingsText : String
  exifPassthrough : Option String
deriving DecidableEq, Repr

/-- add_frame of src/scripts/add_exif_frame_dv.py lines 163-238: open the
image (propagating raster decode errors), return none when it is absent,
take the label texts from the options or from the metadata, compute the
polaroid borders with int() truncation, and save the enlarged canvas as a
sibling JPEG at quality 95.  The pixel-level paste and text drawing do not
affect any modelled output and are omitted. -/
def add_frame (w : World) (image_path : String) (user_options : Option UserOptions) :
    Except PyError (Option SaveRecord) :=
  match open_image w image_path with
  | .error e => .error e
  | .ok (none, _) => .ok none
  | .ok (some img, exif) =>
    let texts :=
      match user_options with
      | some uo =>
        match uo.texts with
        | some ts => ts
        | none => add_frame_texts exif
      | none => add_frame_texts exif
    let border_ratio := border_ratio_of user_options
    let polaroid_bottom := polaroid_of user_options
    let base_dim : ℕ := min img.width img.height
    let border_uniform : ℤ := pyInt (ratMul (mkRat base_dim 1) border_ratio)
    let border_bottom : ℤ :=
      if polaroid_bottom then pyInt (ratMul (mkRat border_uniform 1) (mkRat 36 10))
      else border_uniform
    let new_width : ℤ := img.width + border_uniform * 2
    let new_height : ℤ := img.height + border_uniform + border_bottom
    let output_path := (splitext image_path).1 ++ "_framed.jpg"
    .ok (some
      { path := output_path
        format := formatFromExt (strLower (splitext output_path).2)
        quality := 95
        borderColor := border_color_of user_options
        borderUniform := border_uniform
        borderBottom := border_bottom
        canvasW := new_width
        canvasH := new_height
        cameraText := texts.1
        settingsText := texts.2
        exifPassthrough := img.infoExif })

/-- One stored preset: its description and its settings mapping
(string keys to string values, as the host setting getter returns). -/
structure PresetEntry where
  description : String
  settings : List (String × String)
deriving DecidableEq, Repr

/-- The parsed JSON content of a preset file: the optional top-level
description field, and the presets mapping when the presets key exists. -/
structure PresetFile where
  topDescription : Option String
  presets : Option (List (String × PresetEntry))
deriving DecidableEq, Repr

/-- The environment of one save_custom_preset call: whether the custom
preset file exists, the outcome of opening and json-parsing it, and
whether the final write succeeds. -/
structure PresetWorld where
  fileExists : Bool
  parsed : Except PyError PresetFile
  writeOk : Bool

/-- save_custom_preset of src/scripts/set_broadcast_format_dv.py lines
87-120.  Returns the function result, the file content written (none when
nothing was written), and the console messages printed.  A parse failure
of the existing file is swallowed (except Exception: pass), leaving the
loaded presets empty, after which the file is rewritten from scratch. -/
def save_custom_preset (w : PresetWorld) (name : String)
    (settings : List (String × String)) (description : String) :
    Bool × Option PresetFile × List String :=
  let existing_presets : List (String × PresetEntry) :=
    if w.fileExists then
      match w.parsed with
      | .error _ => []
      | .ok data => data.presets.getD []
    else []
  let existing_presets := assocSet existing_presets name ⟨description, settings⟩
  let output_data : PresetFile :=
    { topDescription := some "Custom broadcast format presets"
      presets := some existing_presets }
  if w.writeOk then (true, some output_data, [])
  else (false, none, ["Error saving custom preset"])

/-! Concrete fixtures used by the witnesses and counterexamples below. -/

/-- A 1000 by 800 raster image carrying no embedded tags. -/
def plainImage : PillowImage :=
  { width := 1000, height := 800, getexif := [], getexifLegacy := none, infoExif := none }

/-- A 6000 by 4000 raw capture. -/
def rawImage : PillowImage :=
  { width := 6000, height := 4000, getexif := [], getexifLegacy := none, infoExif := none }

/-- An environment with one readable raster file and one readable raw file;
every other decode raises. -/
def exampleWorld : World where
  decodeRaster := fun p => if p = "/t/img.jpg" then .ok plainImage else .error ⟨"open failed"⟩
  transposed := fun _ => none
  decodeRaw := fun p =>
    if p = "/a/b/photo.CR2" then .ok rawImage else .error ⟨"raw open failed"⟩
  rawTags := fun _ => none

/-- An environment in which every decode raises. -/
def failingWorld : World where
  decodeRaster := fun _ => .error ⟨"cannot identify image file"⟩
  transposed := fun _ => none
  decodeRaw := fun _ => .error ⟨"raw open failed"⟩
  rawTags := fun _ => none

/-- The dialog options of the C1 example: both texts supplied, border size
5 percent, polaroid style on. -/
def exampleOptions : UserOptions :=
  { texts := some ("C", "S"), border_color := none,
    border_size := some (.int 5), polaroid_style := some true }

/-- What add_frame saves for the 1000 by 800 image under exampleOptions. -/
def exampleRecord : SaveRecord :=
  { path := "/t/img_framed.jpg", format := some "JPEG", quality := 95,
    borderColor := (255, 255, 255), borderUniform := 40, borderBottom := 144,
    canvasW := 1080, canvasH := 984, cameraText := "C", settingsText := "S",
    exifPassthrough := none }

/-- What add_frame saves for the 6000 by 4000 raw capture with default
options and no metadata. -/
def rawRecord : SaveRecord :=
  { path := "/a/b/photo_framed.jpg", format := some "JPEG", quality := 95,
    borderColor := (255, 255, 255), borderUniform := 200, borderBottom := 720,
    canvasW := 6400, canvasH := 4920, cameraText := "Unknown Camera",
    settingsText := "No Exif Data", exifPassthrough := none }

/-- A preset-file environment whose existing file is unparseable and whose
write succeeds. -/
def unparseableWorld : PresetWorld :=
  { fileExists := true, parsed := .error ⟨"Expecting value"⟩, writeOk := true }

/-- A preset-file environment whose write fails. -/
def failingWriteWorld : PresetWorld :=
  { fileExists := true, parsed := .error ⟨"Expecting value"⟩, writeOk := false }

/-- A metadata dictionary with a camera model and no exposure data. -/
def modelOnlyExif : PyDict := [(.str "Model", .str "Canon EOS R5")]

/-- A metadata dictionary as the Canon deduplication example. -/
def canonExif : PyDict :=
  [(.str "Make", .str "Canon"), (.str "Model", .str "Canon EOS R5")]

/-- A metadata dictionary whose model is the make twice over. -/
def canonCanonExif : PyDict :=
  [(.str "Make", .str "Canon"), (.str "Model", .str "Canon Canon")]

/-- A metadata dictionary with a whitespace-only model value. -/
def blankModelExif : PyDict := [(.str "Model", .str " ")]

/-- A metadata dictionary with a make and no model. -/
def makeOnlyExif : PyDict := [(.str "Make", .str "Canon")]

/-- A raster image carrying only an Orientation tag. -/
def orientImage : PillowImage :=
  { width := 100, height := 100, getexif := [(274, .int 1)], getexifLegacy := none,
    infoExif := none }

/-- A raw tag dictionary carrying only a camera model. -/
def modelTags : RawTags := [("Image Model", ⟨"X-T5", none⟩)]

/-- The fixed key vocabulary of the normalized metadata mapping. -/
def fixed_vocabulary : List PyKey :=
  [.str "Model", .str "Make", .str "LensModel", .str "FocalLength",
   .str "FNumber", .str "ISOSpeedRatings", .str "ExposureTime",
   .str "ExposureTimeString"]

/-! Helper lemmas about the embedded primitives. -/

theorem ratMul_eq (a b : ℚ) : ratMul a b = a * b := by
  rw [ratMul, Rat.divInt_eq_div]
  push_cast
  rw [← div_mul_div_comm, Rat.num_div_den, Rat.num_div_den]

theorem ratInv_eq (a : ℚ) : ratInv a = a⁻¹ := (Rat.inv_def a).symm

theorem ratDiv_eq (a b : ℚ) : ratDiv a b = a / b := by
  rw [ratDiv, ratMul_eq, ratInv_eq, div_eq_mul_inv]

theorem pyInt_eq_floor (q : ℚ) (h : 0 ≤ q) : pyInt q = ⌊q⌋ := by
  rw [pyInt, Rat.floor_def, Int.tdiv_eq_ediv (Rat.num_nonneg.mpr h) (by positivity)]

theorem mem_keys_assocSet {d : PyDict} {k0 k : PyKey} {v : PyVal}
    (h : k ∈ dictKeys (assocSet d k0 v)) : k = k0 ∨ k ∈ dictKeys d := by
  unfold assocSet at h
  split at h
  · rcases List.mem_map.mp h with ⟨kv, hkv, hk⟩
    rcases List.mem_map.mp hkv with ⟨kv0, hkv0, hkv0e⟩
    by_cases hb : kv0.1 = k0
    · left
      rw [← hkv0e, if_pos hb] at hk
      exact hk.symm
    · right
      rw [← hkv0e, if_neg hb] at hk
      exact hk ▸ List.mem_map.mpr ⟨kv0, hkv0, rfl⟩
  · rw [dictKeys, List.map_append, List.mem_append] at h
    rcases h with h | h
    · exact .inr h
    · simp only [List.map_cons, List.map_nil, List.mem_singleton] at h
      exact .inl h

theorem mem_keys_rawSetStr {d : PyDict} {t? : Option RawTag} {key : String} {k : PyKey}
    (h : k ∈ dictKeys (rawSetStr d t? key)) : k = .str key ∨ k ∈ dictKeys d := by
  cases t? with
  | none => exact .inr h
  | some t => exact mem_keys_assocSet h

theorem mem_keys_rawSetRatio {d : PyDict} {t? : Option RawTag} {key : String} {k : PyKey}
    (h : k ∈ dictKeys (rawSetRatio d t? key)) : k = .str key ∨ k ∈ dictKeys d := by
  cases t? with
  | none => exact .inr h
  | some t =>
    cases ht : t.ratio with
    | none =>
      simp only [rawSetRatio, ht] at h
      exact .inr h
    | some nd =>
      simp only [rawSetRatio, ht] at h
      exact mem_keys_assocSet h

theorem mem_keys_rawSetExposure {d : PyDict} {t? : Option RawTag} {k : PyKey}
    (h : k ∈ dictKeys (rawSetExposure d t?)) :
    k = .str "ExposureTime" ∨ k = .str "ExposureTimeString" ∨ k ∈ dictKeys d := by
  cases t? with
  | none => exact .inr (.inr h)
  | some t =>
    cases ht : t.ratio with
    | none =>
      simp only [rawSetExposure, ht] at h
      exact .inr (.inr h)
    | some nd =>
      simp only [rawSetExposure, ht] at h
      split at h
      · rcases mem_keys_assocSet h with hk | h2
        · exact .inl hk
        · rcases mem_keys_assocSet h2 with hk | h3
          · exact .inr (.inl hk)
          · exact .inr (.inr h3)
      · rcases mem_keys_assocSet h with hk | h2
        · exact .inl hk
        · exact .inr (.inr h2)

theorem mem_keys_rawSetStr_isSome {d : PyDict} {t? : Option RawTag} {key : String}
    {k : PyKey} (h : k ∈ dictKeys (rawSetStr d t? key)) :
    (k = .str key ∧ t?.isSome = true) ∨ k ∈ dictKeys d := by
  cases t? with
  | none => exact .inr h
  | some t => exact (mem_keys_assocSet h).imp (fun hk => ⟨hk, rfl⟩) id

theorem mem_keys_rawSetRatio_isSome {d : PyDict} {t? : Option RawTag} {key : String}
    {k : PyKey} (h : k ∈ dictKeys (rawSetRatio d t? key)) :
    (k = .str key ∧ t?.isSome = true) ∨ k ∈ dictKeys d := by
  cases t? with
  | none => exact .inr h
  | some t =>
    cases ht : t.ratio with
    | none =>
      simp only [rawSetRatio, ht] at h
      exact .inr h
    | some nd =>
      simp only [rawSetRatio, ht] at h
      exact (mem_keys_assocSet h).imp (fun hk => ⟨hk, rfl⟩) id

theorem mem_keys_rawSetExposure_isSome {d : PyDict} {t? : Option RawTag} {k : PyKey}
    (h : k ∈ dictKeys (rawSetExposure d t?)) :
    ((k = .str "ExposureTime" ∨ k = .str "ExposureTimeString") ∧ t?.isSome = true) ∨
      k ∈ dictKeys d := by
  cases t? with
  | none => exact .inr h
  | some t =>
    cases ht : t.ratio with
    | none =>
      simp only [rawSetExposure, ht] at h
      exact .inr h
    | some nd =>
      simp only [rawSetExposure, ht] at h
      split at h
      · rcases mem_keys_assocSet h with hk | h2
        · exact .inl ⟨.inl hk, rfl⟩
        · rcases mem_keys_assocSet h2 with hk | h3
          · exact .inl ⟨.inr hk, rfl⟩
          · exact .inr h3
      · rcases mem_keys_assocSet h with hk | h2
        · exact .inl ⟨.inl hk, rfl⟩
        · exact .inr h2

theorem get_tag_val_isSome_mem {tags : RawTags} {search_keys : List String}
    (h : (get_tag_val tags search_keys).isSome = true) :
    ∃ name t, (name, t) ∈ tags ∧
      search_keys.any (fun sk => isSubstrBy charEq sk.data name.data) = true := by
  rw [Option.isSome_iff_exists] at h
  obtain ⟨t, ht⟩ := h
  unfold get_tag_val at ht
  obtain ⟨kv, hmem, hf⟩ := List.exists_of_findSome?_eq_some ht
  by_cases hc : search_keys.any (fun sk => isSubstrBy charEq sk.data kv.1.data) = true
  · exact ⟨kv.1, kv.2, by simpa using hmem, hc⟩
  · rw [if_neg hc] at hf
    cases hf

theorem mem_keys_insertTags {items : List (ℕ × PyVal)} {d : PyDict} {k : PyKey}
    (h : k ∈ dictKeys (insertTags d items)) :
    k ∈ dictKeys d ∨ ∃ t v, (t, v) ∈ items ∧ k = decodeTag t := by
  induction items generalizing d with
  | nil => exact .inl h
  | cons tv rest ih =>
    rw [insertTags, List.foldl_cons] at h
    rcases ih h with h' | ⟨t, v, hm, hk⟩
    · rcases mem_keys_assocSet h' with hk | h''
      · exact .inr ⟨tv.1, tv.2, List.mem_cons_self _ _, hk⟩
      · exact .inl h''
    · exact .inr ⟨t, v, List.mem_cons_of_mem _ hm, hk⟩

theorem startsWithBy_append (pat rest : List Char) :
    startsWithBy charEq pat (pat ++ rest) = true := by
  induction pat with
  | nil => rfl
  | cons p ps ih => simp [startsWithBy, charEq, ih]

theorem startsWithBy_map_of_startsWithBy (f : Char → Char) {pat l : List Char}
    (h : startsWithBy charEq pat l = true) :
    startsWithBy charEq (pat.map f) (l.map f) = true := by
  induction pat generalizing l with
  | nil => rfl
  | cons p ps ih =>
    cases l with
    | nil => exact absurd h (by simp [startsWithBy])
    | cons c cs =>
      simp only [startsWithBy, charEq, Bool.and_eq_true, beq_iff_eq] at h
      simp only [List.map_cons, startsWithBy, charEq, Bool.and_eq_true, beq_iff_eq]
      exact ⟨h.1 ▸ rfl, ih h.2⟩

theorem isSubstrBy_map_of_isSubstrBy (f : Char → Char) {pat l : List Char}
    (h : isSubstrBy charEq pat l = true) :
    isSubstrBy charEq (pat.map f) (l.map f) = true := by
  induction l with
  | nil =>
    simp only [isSubstrBy, List.isEmpty_iff] at h ⊢
    simp [h]
  | cons c cs ih =>
    rw [isSubstrBy, Bool.or_eq_true] at h
    rcases h with h | h
    · rw [List.map_cons, isSubstrBy, Bool.or_eq_true]
      exact .inl (by simpa using startsWithBy_map_of_startsWithBy f h)
    · rw [List.map_cons, isSubstrBy, Bool.or_eq_true]
      exact .inr (ih h)

theorem countOccByF_congr (eqc : Char → Char → Bool) (pat : List Char) :
    ∀ (fuel : ℕ) (l : List Char), l.length ≤ fuel →
      countOccByF eqc pat fuel l = countOccBy eqc pat l := by
  intro fuel
  induction fuel using Nat.strong_induction_on with
  | _ fuel ih =>
    intro l h
    cases l with
    | nil => cases fuel <;> rfl
    | cons c cs =>
      cases fuel with
      | zero => exact absurd h (by simp)
      | succ f =>
        have hcs : cs.length ≤ f := by
          simp only [List.length_cons] at h
          omega
        rw [countOccByF]
        conv_rhs => rw [countOccBy, List.length_cons, countOccByF]
        by_cases hp : pat.isEmpty
        · rw [if_pos hp, if_pos hp]
          exact ih f (Nat.lt_succ_self f) cs hcs
        · rw [if_neg hp, if_neg hp]
          by_cases hs : startsWithBy eqc pat (c :: cs) = true
          · rw [if_pos hs, if_pos hs]
            have hd : (cs.drop (pat.length - 1)).length ≤ f := by
              rw [List.length_drop]
              omega
            have hd2 : (cs.drop (pat.length - 1)).length ≤ cs.length := by
              rw [List.length_drop]
              omega
            rw [ih f (Nat.lt_succ_self f) _ hd, ih cs.length (Nat.lt_succ_of_le hcs) _ hd2]
          · rw [if_neg hs, if_neg hs]
            exact ih f (Nat.lt_succ_self f) cs hcs

theorem countOccBy_cons (eqc : Char → Char → Bool) (pat : List Char) (c : Char)
    (cs : List Char) :
    countOccBy eqc pat (c :: cs) =
      if pat.isEmpty then countOccBy eqc pat cs
      else if startsWithBy eqc pat (c :: cs) then
        1 + countOccBy eqc pat (cs.drop (pat.length - 1))
      else countOccBy eqc pat cs := by
  rw [countOccBy, List.length_cons, countOccByF]
  by_cases hp : pat.isEmpty
  · rw [if_pos hp, if_pos hp]
    rfl
  · rw [if_neg hp, if_neg hp]
    by_cases hs : startsWithBy eqc pat (c :: cs) = true
    · rw [if_pos hs, if_pos hs]
      rw [countOccByF_congr eqc pat cs.length _ (by rw [List.length_drop]; omega)]
    · rw [if_neg hs, if_neg hs]
      rfl

theorem countOccBy_append_self {pat rest : List Char} (hne : pat ≠ []) :
    countOccBy charEq pat (pat ++ rest) = 1 + countOccBy charEq pat rest := by
  cases pat with
  | nil => exact absurd rfl hne
  | cons p ps =>
    rw [List.cons_append, countOccBy_cons]
    rw [if_neg (by simp), if_pos (by simpa using startsWithBy_append (p :: ps) rest)]
    simp only [List.length_cons, Nat.add_sub_cancel]
    rw [List.drop_left]

theorem countOccBy_eq_zero {pat l : List Char}
    (h : isSubstrBy charEq pat l = false) : countOccBy charEq pat l = 0 := by
  induction l with
  | nil => rfl
  | cons c cs ih =>
    rw [isSubstrBy, Bool.or_eq_false_iff] at h
    have hpat : ¬ pat.isEmpty = true := by
      intro hp
      have : startsWithBy charEq pat (c :: cs) = true := by
        cases pat with
        | nil => rfl
        | cons _ _ => simp [List.isEmpty] at hp
      rw [this] at h
      exact absurd h.1 (by simp)
    rw [countOccBy_cons, if_neg hpat, if_neg (by rw [h.1]; simp)]
    exact ih h.2

theorem splitWsAux_nonws {l : List Char} (acc : List Char)
    (hl : ∀ c ∈ l, isPyWs c = false) :
    splitWsAux acc l =
      if (acc.reverse ++ l).isEmpty then [] else [acc.reverse ++ l] := by
  induction l generalizing acc with
  | nil => cases acc <;> simp [splitWsAux]
  | cons c cs ih =>
    have hc : isPyWs c = false := hl c (List.mem_cons_self _ _)
    rw [splitWsAux, hc]
    simp only [Bool.false_eq_true, if_false]
    rw [ih (c :: acc) (fun x hx => hl x (List.mem_cons_of_mem _ hx))]
    simp [List.reverse_cons, List.append_assoc]

theorem splitWsL_nonws {l : List Char}
    (hl : ∀ c ∈ l, isPyWs c = false) (hne : l ≠ []) : splitWsL l = [l] := by
  rw [splitWsL, splitWsAux_nonws [] hl]
  simp [hne]

theorem clean_model_ne {raw_model : String} (make : String) (h : raw_model ≠ "") :
    clean_model raw_model make ≠ "" := by
  unfold clean_model
  split
  · exact h
  · assumption

theorem string_mk_ne_empty {l : List Char} (h : l ≠ []) : (⟨l⟩ : String) ≠ "" := by
  intro he
  exact h (congrArg String.data he)

theorem append_ne_empty_left {a b : String} (h : a ≠ "") : a ++ b ≠ "" := by
  intro he
  apply h
  have hd : (a ++ b).data = a.data ++ b.data := String.data_append a b
  rw [he] at hd
  have : a.data = [] := by
    have := hd.symm
    exact List.append_eq_nil.mp this |>.1
  exact String.ext this

theorem sep_append_ne_empty (a b : String) : a ++ " " ++ b ≠ "" := by
  intro he
  have hd : (a ++ " " ++ b).data = a.data ++ ([' '] ++ b.data) := by
    rw [String.data_append, String.data_append, List.append_assoc]
  rw [he] at hd
  have h1 := List.append_eq_nil.mp hd.symm
  exact List.cons_ne_nil _ _ (List.append_eq_nil.mp h1.2).1

theorem format_shutter_speed_none (speed : ℚ) :
    format_shutter_speed speed none =
      if speed = 0 then ""
      else if speed < 0 then ""
      else if speed < 1 then
        (if speed > 0 then "1/" ++ toString (pyInt (ratDiv 1 speed)) else "")
      else pyFloatRepr speed := by
  simp [format_shutter_speed]

theorem lastIdxOf_append_of_isSome {c : Char} {s : List Char} {k : ℕ}
    (h : lastIdxOf c s = some k) (l : List Char) :
    lastIdxOf c (l ++ s) = some (l.length + k) := by
  induction l with
  | nil => simpa using h
  | cons x xs ih =>
    rw [List.cons_append, lastIdxOf, ih]
    rw [Option.some.injEq, List.length_cons]
    omega

theorem lastIdxOf_append_of_none {c : Char} {s : List Char}
    (h : lastIdxOf c s = none) (l : List Char) :
    lastIdxOf c (l ++ s) = lastIdxOf c l := by
  induction l with
  | nil => simpa using h
  | cons x xs ih =>
    rw [List.cons_append, lastIdxOf, ih]
    cases hx : lastIdxOf c xs with
    | none => rw [lastIdxOf, hx]
    | some i => rw [lastIdxOf, hx]

theorem lastIdxOf_lt_length {c : Char} {l : List Char} {k : ℕ}
    (h : lastIdxOf c l = some k) : k < l.length := by
  induction l generalizing k with
  | nil => simp [lastIdxOf] at h
  | cons x xs ih =>
    rw [lastIdxOf] at h
    cases hx : lastIdxOf c xs with
    | none =>
      simp only [hx] at h
      split at h
      · cases h
        simp
      · cases h
    | some i =>
      simp only [hx] at h
      cases h
      exact Nat.succ_lt_succ (ih hx)


theorem framed_slice_not_dots (root : List Char) (f : ℕ) (hf : f ≤ root.length) :
    (((root ++ "_framed.jpg".data).drop f).take (root.length + 7 - f)).all (· == '.') = false := by
  rw [List.all_eq_false]
  refine ⟨'d', ?_, by decide⟩
  have hq : ((((root ++ "_framed.jpg".data).drop f).take
      (root.length + 7 - f)))[root.length + 6 - f]? = some 'd' := by
    rw [List.getElem?_take, if_pos (by omega), List.getElem?_drop]
    have harg : f + (root.length + 6 - f) = root.length + 6 := by omega
    rw [harg, List.getElem?_append_right (by omega)]
    have harg2 : root.length + 6 - root.length = 6 := by omega
    rw [harg2]
    decide
  exact List.getElem?_mem hq

theorem framed_cat : ("_framed.jpg".data : List Char) = "_framed".data ++ ".jpg".data := by
  decide

theorem framed_take (root : List Char) :
    (root ++ "_framed.jpg".data).take (root.length + 7) = root ++ "_framed".data := by
  rw [framed_cat, ← List.append_assoc]
  apply List.take_left'
  rw [List.length_append]
  have h7 : ("_framed".data : List Char).length = 7 := by decide
  omega

theorem framed_drop (root : List Char) :
    (root ++ "_framed.jpg".data).drop (root.length + 7) = ".jpg".data := by
  rw [framed_cat, ← List.append_assoc]
  apply List.drop_left'
  rw [List.length_append]
  have h7 : ("_framed".data : List Char).length = 7 := by decide
  omega

theorem splitextL_framed (root : List Char) :
    splitextL (root ++ "_framed.jpg".data) = (root ++ "_framed".data, ".jpg".data) := by
  have hdot : lastIdxOf '.' (root ++ "_framed.jpg".data) = some (root.length + 7) :=
    lastIdxOf_append_of_isSome (by decide) root
  have hsep : lastIdxOf '/' (root ++ "_framed.jpg".data) = lastIdxOf '/' root :=
    lastIdxOf_append_of_none (by decide) root
  unfold splitextL
  rw [hdot, hsep]
  simp only [Option.map_some', Option.getD_some, Int.ofNat_eq_natCast]
  cases hr : lastIdxOf '/' root with
  | none =>
    simp only [Option.map_none', Option.getD_none]
    rw [if_pos (by omega)]
    have hz : ((-1 : ℤ) + 1).toNat = 0 := by omega
    have htn : ((root.length + 7 : ℕ) : ℤ).toNat = root.length + 7 := by omega
    simp only [hz, htn]
    split
    · next hcond =>
        exfalso
        rw [framed_slice_not_dots root 0 (Nat.zero_le _)] at hcond
        exact Bool.false_ne_true hcond
    · rw [framed_take, framed_drop]
  | some i =>
    have hi : i < root.length := lastIdxOf_lt_length hr
    simp only [Option.map_some', Option.getD_some, Int.ofNat_eq_natCast]
    rw [if_pos (by omega)]
    have hz2 : (((i : ℕ) : ℤ) + 1).toNat = i + 1 := by omega
    have htn : ((root.length + 7 : ℕ) : ℤ).toNat = root.length + 7 := by omega
    simp only [hz2, htn]
    split
    · next hcond =>
        exfalso
        rw [framed_slice_not_dots root (i + 1) (by omega)] at hcond
        exact Bool.false_ne_true hcond
    · rw [framed_take, framed_drop]

theorem mem_rawExts_not_mem_rasterExts {s : String} (h : s ∈ rawExts) :
    s ∉ rasterExts := by
  fin_cases h <;> decide

theorem splitext_framed (root : String) :
    splitext (root ++ "_framed.jpg") = (root ++ "_framed", ".jpg") := by
  unfold splitext
  have hd : (root ++ "_framed.jpg").data = root.data ++ "_framed.jpg".data :=
    String.data_append _ _
  rw [hd, splitextL_framed]
  dsimp only
  rw [Prod.mk.injEq]
  exact ⟨String.ext (by rw [String.data_append]), String.ext rfl⟩

/-! The claims. -/

/-- C2 counterexample: at the claim's own inputs the source deviates twice.
format_shutter_speed(2.0) renders the float as 2.0, not the claimed 2; and
for speed 0.6 the source truncates 1/0.6 to 1 where the claimed rounding
gives 2, so the output is 1/1 rather than 1/2. -/
theorem c2_counterexample :
    format_shutter_speed (mkRat 2 1) none = "2.0" ∧
    format_shutter_speed (mkRat 2 1) none ≠ "2" ∧
    format_shutter_speed (mkRat 3 5) none = "1/1" ∧
    format_shutter_speed (mkRat 3 5) none ≠ "1/2" := by
  decide

/-- C2 amended: with no precomputed display string, format_shutter_speed
returns the empty string for zero or negative speeds, the string 1/N with
N the TRUNCATION of 1/speed for speeds strictly between 0 and 1, and the
Python float rendering (2.0 for input 2.0) for speeds of 1 or more. -/
theorem c2_amended_shutter (speed : ℚ) :
    (speed ≤ 0 → format_shutter_speed speed none = "") ∧
    (0 < speed → speed < 1 →
      format_shutter_speed speed none = "1/" ++ toString ⌊(1 : ℚ) / speed⌋) ∧
    (1 ≤ speed → format_shutter_speed speed none = pyFloatRepr speed) := by
  refine ⟨?_, ?_, ?_⟩
  · intro h
    rcases lt_or_eq_of_le h with hlt | heq
    · rw [format_shutter_speed_none, if_neg (ne_of_lt hlt), if_pos hlt]
    · rw [format_shutter_speed_none, if_pos heq]
  · intro h0 h1
    rw [format_shutter_speed_none, if_neg (ne_of_gt h0), if_neg (not_lt.mpr h0.le),
      if_pos h1, if_pos h0]
    rw [ratDiv_eq, pyInt_eq_floor _ (by positivity)]
  · intro h
    rw [format_shutter_speed_none, if_neg (ne_of_gt (lt_of_lt_of_le zero_lt_one h)),
      if_neg (not_lt.mpr (le_trans zero_le_one h)), if_neg (not_lt.mpr h)]

/-- C2 witness: the amended theorem at the claim's example speed 1/2000. -/
theorem c2_witness :
    (0 : ℚ) < mkRat 1 2000 ∧ mkRat 1 2000 < 1 ∧
    format_shutter_speed (mkRat 1 2000) none = "1/" ++ toString ⌊(1 : ℚ) / mkRat 1 2000⌋ :=
  ⟨by decide, by decide, (c2_amended_shutter (mkRat 1 2000)).2.1 (by decide) (by decide)⟩

/-- C3 counterexample: on a supported raster extension a failing decode is
not swallowed; open_image propagates the exception to its caller. -/
theorem c3_counterexample :
    open_image failingWorld "/t/broken.jpg" = .error ⟨"cannot identify image file"⟩ := rfl

/-- C3 amended: open_image never raises on raw or unsupported extensions;
a failing raw decode is swallowed and yields the absent image with an
empty mapping; but on a supported raster extension a decoder error
propagates unchanged (Image.open is outside the try-block). -/
theorem c3_amended_open_image :
    (∀ (w : World) (path : String), strLower (splitext path).2 ∉ rasterExts →
      ∃ v, open_image w path = .ok v) ∧
    (∀ (w : World) (path : String) (e : PyError),
      strLower (splitext path).2 ∈ rawExts → w.decodeRaw path = .error e →
      open_image w path = .ok (none, [])) ∧
    (∀ (w : World) (path : String) (e : PyError),
      strLower (splitext path).2 ∈ rasterExts → w.decodeRaster path = .error e →
      open_image w path = .error e) := by
  refine ⟨?_, ?_, ?_⟩
  · intro w path h
    simp only [open_image]
    rw [if_neg h]
    by_cases h2 : strLower (splitext path).2 ∈ rawExts
    · rw [if_pos h2]
      cases hdr : w.decodeRaw path with
      | error e => exact ⟨(none, []), rfl⟩
      | ok img => exact ⟨(some img, get_exif_data_raw w path), rfl⟩
    · rw [if_neg h2]
      exact ⟨(none, []), rfl⟩
  · intro w path e hm hd
    simp only [open_image]
    rw [if_neg (mem_rawExts_not_mem_rasterExts hm), if_pos hm, hd]
  · intro w path e hm hd
    simp only [open_image]
    rw [if_pos hm, hd]

/-- C3 witness: the amended theorem at an unsupported path, at a
raw-failure path (absent image, empty mapping) and at a raster-failure
path of the failing environment. -/
theorem c3_witness :
    (strLower (splitext "/t/note.txt").2 ∉ rasterExts ∧
      ∃ v, open_image failingWorld "/t/note.txt" = .ok v) ∧
    (strLower (splitext "/t/clip.ARW").2 ∈ rawExts ∧
      failingWorld.decodeRaw "/t/clip.ARW" = .error ⟨"raw open failed"⟩ ∧
      open_image failingWorld "/t/clip.ARW" = .ok (none, [])) ∧
    (strLower (splitext "/t/other.jpg").2 ∈ rasterExts ∧
      failingWorld.decodeRaster "/t/other.jpg" = .error ⟨"cannot identify image file"⟩ ∧
      open_image failingWorld "/t/other.jpg" = .error ⟨"cannot identify image file"⟩) :=
  ⟨⟨by decide, c3_amended_open_image.1 failingWorld "/t/note.txt" (by decide)⟩,
   ⟨by decide, rfl,
    c3_amended_open_image.2.1 failingWorld "/t/clip.ARW" _ (by decide) rfl⟩,
   ⟨by decide, rfl,
    c3_amended_open_image.2.2 failingWorld "/t/other.jpg" _ (by decide) rfl⟩⟩

/-- C5 counterexample: with an existing but unparseable preset file the
save neither aborts nor reports; it returns success, prints nothing, and
rewrites the file so that it contains only the new preset. -/
theorem c5_counterexample :
    save_custom_preset unparseableWorld "My Preset" [("timelineFrameRate", "25")] "desc" =
      (true,
       some { topDescription := some "Custom broadcast format presets",
              presets := some [("My Preset",
                ⟨"desc", [("timelineFrameRate", "25")]⟩)] },
       []) := by
  decide

/-- C5 amended: when the custom preset file exists but is unparseable and
the write succeeds, save_custom_preset silently swallows the parse
failure, treats the stored presets as empty, rewrites the file with only
the newly saved preset (loss of the prior content), returns True, and
prints no error; only a failing write is reported on the console and
returns False, with nothing written. -/
theorem c5_amended_save :
    (∀ (w : PresetWorld) (name : String) (settings : List (String × String))
      (description : String) (e : PyError),
      w.fileExists = true → w.parsed = .error e → w.writeOk = true →
      save_custom_preset w name settings description =
        (true,
         some { topDescription := some "Custom broadcast format presets",
                presets := some [(name, ⟨description, settings⟩)] },
         [])) ∧
    (∀ (w : PresetWorld) (name : String) (settings : List (String × String))
      (description : String),
      w.writeOk = false →
      save_custom_preset w name settings description =
        (false, none, ["Error saving custom preset"])) := by
  constructor
  · intro w name settings description e hex hp hw
    unfold save_custom_preset
    rw [hex, hp, hw]
    simp [assocSet, assocHas]
  · intro w name settings description hw
    unfold save_custom_preset
    rw [hw]
    simp

/-- C5 witness: the amended theorem in the unparseable environment, for a
succeeding and for a failing write. -/
theorem c5_witness :
    (unparseableWorld.fileExists = true ∧
     unparseableWorld.parsed = .error ⟨"Expecting value"⟩ ∧
     unparseableWorld.writeOk = true ∧
     save_custom_preset unparseableWorld "My Preset" [("timelineFrameRate", "25")] "desc" =
       (true,
        some { topDescription := some "Custom broadcast format presets",
               presets := some [("My Preset",
                 ⟨"desc", [("timelineFrameRate", "25")]⟩)] },
        [])) ∧
    (failingWriteWorld.writeOk = false ∧
     save_custom_preset failingWriteWorld "My Preset" [("timelineFrameRate", "25")] "desc" =
       (false, none, ["Error saving custom preset"])) :=
  ⟨⟨rfl, rfl, rfl,
    c5_amended_save.1 unparseableWorld "My Preset" [("timelineFrameRate", "25")]
      "desc" ⟨"Expecting value"⟩ rfl rfl rfl⟩,
   ⟨rfl,
    c5_amended_save.2 failingWriteWorld "My Preset" [("timelineFrameRate", "25")]
      "desc" rfl⟩⟩

/-- C6 counterexample: with a present model and no exposure data the
settings line is empty, yet the caller does not substitute No Exif Data,
because the camera line is not the Unknown Camera sentinel. -/
theorem c6_counterexample :
    add_frame_texts modelOnlyExif = ("Canon EOS R5", "") ∧
    ("" : String) ≠ "No Exif Data" := by
  decide

/-- C6 amended: when focal length, f-number, ISO, exposure time and the
exposure display string are all absent or falsy, the settings line is
empty, and the caller substitutes No Exif Data exactly when the camera
line is the Unknown Camera sentinel. -/
theorem c6_amended_settings (exif : PyDict)
    (hfl : (dictGet exif "FocalLength" (.int 0)).truthy = false)
    (hfn : (dictGet exif "FNumber" (.int 0)).truthy = false)
    (hiso : (dictGet exif "ISOSpeedRatings" (.int 0)).truthy = false)
    (het : (dictGet exif "ExposureTime" (.int 0)).truthy = false)
    (hets : ((dictGetOpt exif "ExposureTimeString").map PyVal.truthy).getD false = false) :
    settings_line exif = "" ∧
    add_frame_texts exif =
      (camera_top_text exif,
       if camera_top_text exif = "Unknown Camera" then "No Exif Data" else "") := by
  have hs : settings_line exif = "" := by
    unfold settings_line fl_str_of fn_str_of ss_str_of iso_str_of
    rw [hfl, hfn, hiso, het, hets]
    simp
    rfl
  refine ⟨hs, ?_⟩
  by_cases hc : camera_top_text exif = "Unknown Camera"
  · simp [add_frame_texts, create_exif_string, hs, hc]
  · simp [add_frame_texts, create_exif_string, hs, hc]

/-- C6 witness: the amended theorem at the model-only mapping. -/
theorem c6_witness :
    (dictGet modelOnlyExif "FocalLength" (.int 0)).truthy = false ∧
    (dictGet modelOnlyExif "FNumber" (.int 0)).truthy = false ∧
    (dictGet modelOnlyExif "ISOSpeedRatings" (.int 0)).truthy = false ∧
    (dictGet modelOnlyExif "ExposureTime" (.int 0)).truthy = false ∧
    ((dictGetOpt modelOnlyExif "ExposureTimeString").map PyVal.truthy).getD false = false ∧
    (settings_line modelOnlyExif = "" ∧
     add_frame_texts modelOnlyExif =
       (camera_top_text modelOnlyExif,
        if camera_top_text modelOnlyExif = "Unknown Camera" then "No Exif Data" else "")) :=
  ⟨by decide, by decide, by decide, by decide, by decide,
   c6_amended_settings modelOnlyExif (by decide) (by decide) (by decide) (by decide)
     (by decide)⟩

/-- C8: a path with an extension outside both closed format sets yields an
absent image with an empty metadata mapping from open_image, without
raising, and add_frame consequently returns no output. -/
theorem c8_unsupported_ext (w : World) (path : String) (uo : Option UserOptions)
    (h1 : strLower (splitext path).2 ∉ rasterExts)
    (h2 : strLower (splitext path).2 ∉ rawExts) :
    open_image w path = .ok (none, []) ∧ add_frame w path uo = .ok none := by
  have ho : open_image w path = .ok (none, []) := by
    simp only [open_image]
    rw [if_neg h1, if_neg h2]
  refine ⟨ho, ?_⟩
  unfold add_frame
  rw [ho]

/-- C7: whenever add_frame produces an output, its path is the input path
with _framed appended to the stem and the extension replaced by .jpg; the
encoder resolved from that path is JPEG and the quality is 95, whatever
the source format was. -/
theorem c7_output_path (w : World) (path : String) (uo : Option UserOptions)
    (r : SaveRecord) (h : add_frame w path uo = .ok (some r)) :
    r.path = (splitext path).1 ++ "_framed.jpg" ∧ r.quality = 95 ∧
      r.format = some "JPEG" := by
  unfold add_frame at h
  cases ho : open_image w path with
  | error e =>
    rw [ho] at h
    simp at h
  | ok v =>
    obtain ⟨img?, exif⟩ := v
    cases img? with
    | none =>
      rw [ho] at h
      simp at h
    | some img =>
      rw [ho] at h
      simp only [Except.ok.injEq, Option.some.injEq] at h
      subst h
      refine ⟨rfl, rfl, ?_⟩
      show formatFromExt (strLower (splitext ((splitext path).1 ++ "_framed.jpg")).2) =
        some "JPEG"
      rw [splitext_framed]
      rfl

/-- C7 witness: the theorem at the raw example path, which maps to the
sibling JPEG. -/
theorem c7_witness :
    add_frame exampleWorld "/a/b/photo.CR2" none = .ok (some rawRecord) ∧
    (rawRecord.path = (splitext "/a/b/photo.CR2").1 ++ "_framed.jpg" ∧
     rawRecord.quality = 95 ∧ rawRecord.format = some "JPEG") :=
  ⟨rfl, c7_output_path exampleWorld "/a/b/photo.CR2" none rawRecord rfl⟩

/-- C4 counterexample: a raster image carrying an Orientation tag yields a
mapping whose key lies outside the fixed vocabulary, because the Pillow
extractor copies every decoded tag. -/
theorem c4_counterexample :
    get_exif_data_pillow orientImage = [(.str "Orientation", .int 1)] ∧
    (PyKey.str "Orientation") ∉ fixed_vocabulary := by
  decide

/-- C4 amended: the raw extractor only ever emits keys of the fixed
vocabulary; the Pillow extractor emits exactly the decoded tags present in
the file (so a tag outside the vocabulary appears whenever the file
carries one); in the raw extractor every key requires its tag search to
have succeeded, and a successful search means a matching tag is present
in the file — so in both extractors a key can only come from a tag that
is present, never from an absent tag with a null value. -/
theorem c4_amended_vocab :
    (∀ (tags : RawTags), ∀ k ∈ dictKeys (get_exif_data_raw_core tags),
      k ∈ fixed_vocabulary) ∧
    (∀ (image : PillowImage), ∀ k ∈ dictKeys (get_exif_data_pillow image),
      (∃ t v, (t, v) ∈ image.getexif ∧ k = decodeTag t) ∨
      (∃ l t v, image.getexifLegacy = some l ∧ (t, v) ∈ l ∧ k = decodeTag t)) ∧
    (∀ (tags : RawTags) (k : PyKey), k ∈ dictKeys (get_exif_data_raw_core tags) →
      (k = .str "Model" ∧
        (get_tag_val tags ["Image Model", "Model"]).isSome = true) ∨
      (k = .str "Make" ∧
        (get_tag_val tags ["Image Make", "Make"]).isSome = true) ∨
      (k = .str "LensModel" ∧
        (get_tag_val tags ["EXIF LensModel", "LensModel", "LensInfo", "Lens"]).isSome
          = true) ∨
      (k = .str "FocalLength" ∧
        (get_tag_val tags ["EXIF FocalLength", "FocalLength"]).isSome = true) ∨
      (k = .str "FNumber" ∧
        (get_tag_val tags ["EXIF FNumber", "FNumber", "ApertureValue"]).isSome = true) ∨
      (k = .str "ISOSpeedRatings" ∧
        (get_tag_val tags ["EXIF ISOSpeedRatings", "ISOSpeed", "ISO"]).isSome = true) ∨
      ((k = .str "ExposureTime" ∨ k = .str "ExposureTimeString") ∧
        (get_tag_val tags
          ["EXIF ExposureTime", "ExposureTime", "ShutterSpeedValue"]).isSome = true)) ∧
    (∀ (tags : RawTags) (search_keys : List String),
      (get_tag_val tags search_keys).isSome = true →
      ∃ name t, (name, t) ∈ tags ∧
        search_keys.any (fun sk => isSubstrBy charEq sk.data name.data) = true) := by
  refine ⟨?_, ?_, ?_, fun _ _ => get_tag_val_isSome_mem⟩
  · intro tags k hk
    unfold get_exif_data_raw_core at hk
    rcases mem_keys_rawSetExposure hk with rfl | rfl | hk
    · decide
    · decide
    rcases mem_keys_rawSetStr hk with rfl | hk
    · decide
    rcases mem_keys_rawSetRatio hk with rfl | hk
    · decide
    rcases mem_keys_rawSetRatio hk with rfl | hk
    · decide
    rcases mem_keys_rawSetStr hk with rfl | hk
    · decide
    rcases mem_keys_rawSetStr hk with rfl | hk
    · decide
    rcases mem_keys_rawSetStr hk with rfl | hk
    · decide
    simp [dictKeys] at hk
  · intro image k hk
    have hbase : k ∈ dictKeys (insertTags [] image.getexif) →
        (∃ t v, (t, v) ∈ image.getexif ∧ k = decodeTag t) := by
      intro hk2
      rcases mem_keys_insertTags hk2 with h0 | ⟨t, v, hm, hk3⟩
      · simp [dictKeys] at h0
      · exact ⟨t, v, hm, hk3⟩
    simp only [get_exif_data_pillow] at hk
    split at hk
    · simp [dictKeys] at hk
    · split at hk
      · exact .inl (hbase hk)
      · cases hleg : image.getexifLegacy with
        | none =>
          simp only [hleg] at hk
          exact .inl (hbase hk)
        | some il =>
          simp only [hleg] at hk
          split at hk
          · exact .inl (hbase hk)
          · rcases mem_keys_insertTags hk with h0 | ⟨t, v, hm, hk3⟩
            · exact .inl (hbase h0)
            · exact .inr ⟨il, t, v, rfl, hm, hk3⟩
  · intro tags k hk
    unfold get_exif_data_raw_core at hk
    rcases mem_keys_rawSetExposure_isSome hk with ⟨hk1, hs⟩ | hk
    · exact .inr (.inr (.inr (.inr (.inr (.inr ⟨hk1, hs⟩)))))
    rcases mem_keys_rawSetStr_isSome hk with ⟨hk1, hs⟩ | hk
    · exact .inr (.inr (.inr (.inr (.inr (.inl ⟨hk1, hs⟩)))))
    rcases mem_keys_rawSetRatio_isSome hk with ⟨hk1, hs⟩ | hk
    · exact .inr (.inr (.inr (.inr (.inl ⟨hk1, hs⟩))))
    rcases mem_keys_rawSetRatio_isSome hk with ⟨hk1, hs⟩ | hk
    · exact .inr (.inr (.inr (.inl ⟨hk1, hs⟩)))
    rcases mem_keys_rawSetStr_isSome hk with ⟨hk1, hs⟩ | hk
    · exact .inr (.inr (.inl ⟨hk1, hs⟩))
    rcases mem_keys_rawSetStr_isSome hk with ⟨hk1, hs⟩ | hk
    · exact .inr (.inl ⟨hk1, hs⟩)
    rcases mem_keys_rawSetStr_isSome hk with ⟨hk1, hs⟩ | hk
    · exact .inl ⟨hk1, hs⟩
    simp [dictKeys] at hk

/-- C4 witness: the raw vocabulary containment, the keys-from-found-tags
disjunction and the found-tag-is-present step at a model-only tag set. -/
theorem c4_witness :
    ((PyKey.str "Model") ∈ dictKeys (get_exif_data_raw_core modelTags) ∧
     (PyKey.str "Model") ∈ fixed_vocabulary) ∧
    ((PyKey.str "Model" = .str "Model" ∧
        (get_tag_val modelTags ["Image Model", "Model"]).isSome = true) ∨
     (PyKey.str "Model" = .str "Make" ∧
        (get_tag_val modelTags ["Image Make", "Make"]).isSome = true) ∨
     (PyKey.str "Model" = .str "LensModel" ∧
        (get_tag_val modelTags
          ["EXIF LensModel", "LensModel", "LensInfo", "Lens"]).isSome = true) ∨
     (PyKey.str "Model" = .str "FocalLength" ∧
        (get_tag_val modelTags ["EXIF FocalLength", "FocalLength"]).isSome = true) ∨
     (PyKey.str "Model" = .str "FNumber" ∧
        (get_tag_val modelTags ["EXIF FNumber", "FNumber", "ApertureValue"]).isSome
          = true) ∨
     (PyKey.str "Model" = .str "ISOSpeedRatings" ∧
        (get_tag_val modelTags ["EXIF ISOSpeedRatings", "ISOSpeed", "ISO"]).isSome
          = true) ∨
     ((PyKey.str "Model" = .str "ExposureTime" ∨
       PyKey.str "Model" = .str "ExposureTimeString") ∧
        (get_tag_val modelTags
          ["EXIF ExposureTime", "ExposureTime", "ShutterSpeedValue"]).isSome = true)) ∧
    ((get_tag_val modelTags ["Image Model", "Model"]).isSome = true ∧
     ∃ name t, (name, t) ∈ modelTags ∧
       (["Image Model", "Model"].any
         (fun sk => isSubstrBy charEq sk.data name.data)) = true) :=
  ⟨⟨by decide, c4_amended_vocab.1 modelTags (.str "Model") (by decide)⟩,
   c4_amended_vocab.2.2.1 modelTags (.str "Model") (by decide),
   ⟨by decide,
    c4_amended_vocab.2.2.2 modelTags ["Image Model", "Model"] (by decide)⟩⟩

/-- C1 counterexample: for the 1000 by 800 image with ratio 0.05 and
polaroid enabled, the source computes uniform border 40 (from the shorter
side, truncated), bottom border 144 and canvas 1080 by 984, not the
claimed 50, 180 and 1100 by 1030. -/
theorem c1_counterexample :
    add_frame exampleWorld "/t/img.jpg" (some exampleOptions) = .ok (some exampleRecord) ∧
    exampleRecord.borderUniform ≠ 50 ∧ exampleRecord.borderBottom ≠ 180 ∧
    exampleRecord.canvasW ≠ 1100 ∧ exampleRecord.canvasH ≠ 1030 :=
  ⟨rfl, by decide, by decide, by decide, by decide⟩

/-- C1 amended: with a nonnegative border ratio, the uniform border is the
FLOOR of min(width, height) times the ratio (int() truncation, not
rounding), the bottom border is the floor of 3.6 times the uniform border
when polaroid style is on and equals it otherwise, and the canvas is
(width + 2 uniform, height + uniform + bottom); for the 1000 by 800
example at ratio 0.05 this gives 40, 144 and 1080 by 984. -/
theorem c1_amended_borders (w : World) (path : String) (uo : Option UserOptions)
    (img : PillowImage) (exif : PyDict) (r : SaveRecord)
    (ho : open_image w path = .ok (some img, exif))
    (hr : add_frame w path uo = .ok (some r))
    (hratio : 0 ≤ border_ratio_of uo) :
    r.borderUniform = ⌊(min img.width img.height : ℚ) * border_ratio_of uo⌋ ∧
    r.borderBottom = (if polaroid_of uo then ⌊(r.borderUniform : ℚ) * (18 / 5)⌋
      else r.borderUniform) ∧
    r.canvasW = img.width + 2 * r.borderUniform ∧
    r.canvasH = img.height + r.borderUniform + r.borderBottom := by
  unfold add_frame at hr
  rw [ho] at hr
  simp only [Except.ok.injEq, Option.some.injEq] at hr
  subst hr
  have humain : pyInt (ratMul (mkRat (((min img.width img.height : ℕ)) : ℤ) 1)
      (border_ratio_of uo)) = ⌊(min img.width img.height : ℚ) * border_ratio_of uo⌋ := by
    rw [ratMul_eq, Rat.mkRat_one, pyInt_eq_floor _ (by positivity)]
    push_cast
    rfl
  refine ⟨humain, ?_, ?_, ?_⟩ <;> dsimp only
  · rw [humain]
    by_cases hpol : polaroid_of uo
    · simp only [if_pos hpol]
      have hu0 : (0 : ℤ) ≤ ⌊(min img.width img.height : ℚ) * border_ratio_of uo⌋ :=
        Int.floor_nonneg.mpr (by positivity)
      have h36 : (mkRat 36 10 : ℚ) = 18 / 5 := by
        rw [Rat.mkRat_eq_div]
        norm_num
      rw [ratMul_eq, Rat.mkRat_one, h36]
      exact pyInt_eq_floor _ (mul_nonneg (by exact_mod_cast hu0) (by norm_num))
    · simp only [if_neg hpol]
  · rw [humain]
    ring

/-- C1 witness: the amended theorem at the 1000 by 800 example. -/
theorem c1_witness :
    open_image exampleWorld "/t/img.jpg" = .ok (some plainImage, []) ∧
    add_frame exampleWorld "/t/img.jpg" (some exampleOptions) = .ok (some exampleRecord) ∧
    0 ≤ border_ratio_of (some exampleOptions) ∧
    (exampleRecord.borderUniform =
      ⌊(min plainImage.width plainImage.height : ℚ) * border_ratio_of (some exampleOptions)⌋ ∧
     exampleRecord.borderBottom = (if polaroid_of (some exampleOptions) then
       ⌊(exampleRecord.borderUniform : ℚ) * (18 / 5)⌋ else exampleRecord.borderUniform) ∧
     exampleRecord.canvasW = plainImage.width + 2 * exampleRecord.borderUniform ∧
     exampleRecord.canvasH =
       plainImage.height + exampleRecord.borderUniform + exampleRecord.borderBottom) :=
  ⟨rfl, rfl, by decide,
   c1_amended_borders exampleWorld "/t/img.jpg" (some exampleOptions) plainImage []
     exampleRecord rfl rfl (by decide)⟩

/-- C9 counterexample: with make Canon and raw model Canon Canon, the
stripping empties the model, the restore path brings the doubled string
back verbatim, and the camera line contains the manufacturer twice; the
Canon EOS R5 example itself deduplicates to a single occurrence. -/
theorem c9_counterexample :
    camera_top_text canonCanonExif = "Canon Canon" ∧
    countOccBy charEq "Canon".data (camera_top_text canonCanonExif).data = 2 ∧
    countOccBy charEq "Canon".data (camera_top_text canonExif).data = 1 := by
  decide

/-- C9 amended: the camera line contains the manufacturer exactly once
provided the make is a non-empty single title-cased word, the model
begins with it, the stripped model is non-empty (so the restore path of
line 119 is not taken) and no longer contains the make case-insensitively
(stripping can fabricate new occurrences by concatenation), and no lens
is appended. -/
theorem c9_amended_dedup (exif : PyDict)
    (hmake_ne : make_of exif ≠ "")
    (hword : ∀ c ∈ (make_of exif).data, isPyWs c = false)
    (htitle : pyTitleL false (make_of exif).data = (make_of exif).data)
    (hbegin : startsWithBy charEq (make_of exif).data (raw_model_of exif).data = true)
    (hmc_ne : clean_model (raw_model_of exif) (make_of exif) ≠ "")
    (hmc_free : isSubstrBy charEq (lowerList (make_of exif).data)
      (lowerList (clean_model (raw_model_of exif) (make_of exif)).data) = false)
    (hlens : lens_of exif = "") :
    countOccBy charEq (make_of exif).data (camera_top_text exif).data = 1 := by
  set make := make_of exif with hmk
  set mc := clean_model (raw_model_of exif) (make_of exif) with hmcdef
  have hdata_ne : make.data ≠ [] := by
    intro hd
    exact hmake_ne (String.ext hd)
  have hsm : simple_make_of make = make := by
    unfold simple_make_of
    rw [if_pos hmake_ne, splitWsL_nonws hword hdata_ne]
    simp only [List.headD]
    rw [htitle]
  have hcam : camera_name_of (simple_make_of make) mc = make ++ " " ++ mc := by
    rw [hsm]
    unfold camera_name_of
    rw [if_pos ⟨hmake_ne, hmc_free⟩]
  have htop : camera_top_text exif = make ++ " " ++ mc := by
    simp only [camera_top_text]
    rw [hlens, if_neg (by simp)]
    exact hcam
  rw [htop]
  have hdata : (make ++ " " ++ mc).data = make.data ++ (' ' :: mc.data) := by
    rw [String.data_append, String.data_append, List.append_assoc]
    rfl
  rw [hdata, countOccBy_append_self hdata_ne]
  have hnot : isSubstrBy charEq make.data (' ' :: mc.data) = false := by
    rw [isSubstrBy]
    refine Bool.or_eq_false_iff.mpr ⟨?_, ?_⟩
    · cases hmd : make.data with
      | nil => exact absurd hmd hdata_ne
      | cons m ms =>
        have hm : isPyWs m = false := hword m (hmd ▸ List.mem_cons_self _ _)
        have hne : (m == ' ') = false := by
          refine beq_eq_false_iff_ne.mpr ?_
          intro he
          subst he
          simp [isPyWs] at hm
        rw [startsWithBy]
        simp [charEq, hne]
    · by_contra hc
      rw [Bool.not_eq_false] at hc
      have h2 : isSubstrBy charEq (lowerList make.data) (lowerList mc.data) = true :=
        isSubstrBy_map_of_isSubstrBy Char.toLower hc
      rw [hmc_free] at h2
      exact Bool.false_ne_true h2
  rw [countOccBy_eq_zero hnot]

/-- C9 witness: the amended theorem at the Canon EOS R5 mapping. -/
theorem c9_witness :
    make_of canonExif ≠ "" ∧
    (∀ c ∈ (make_of canonExif).data, isPyWs c = false) ∧
    pyTitleL false (make_of canonExif).data = (make_of canonExif).data ∧
    startsWithBy charEq (make_of canonExif).data (raw_model_of canonExif).data = true ∧
    clean_model (raw_model_of canonExif) (make_of canonExif) ≠ "" ∧
    isSubstrBy charEq (lowerList (make_of canonExif).data)
      (lowerList (clean_model (raw_model_of canonExif) (make_of canonExif)).data) = false ∧
    lens_of canonExif = "" ∧
    countOccBy charEq (make_of canonExif).data (camera_top_text canonExif).data = 1 :=
  ⟨by decide, by decide, by decide, by decide, by decide, by decide, by decide,
   c9_amended_dedup canonExif (by decide) (by decide) (by decide) (by decide) (by decide)
     (by decide) (by decide)⟩

/-- C10 counterexample: a whitespace-only Model value yields an empty
camera line, and an absent Model with a present Make yields the line
Canon Unknown Camera rather than the bare sentinel. -/
theorem c10_counterexample :
    camera_top_text blankModelExif = "" ∧
    camera_top_text makeOnlyExif = "Canon Unknown Camera" ∧
    ("Canon Unknown Camera" : String) ≠ "Unknown Camera" := by
  decide

/-- C10 amended: the camera line is non-empty whenever the stripped Model
value (or its Unknown Camera default when the tag is absent) is non-empty,
because the restore of line 119 brings the original model back when
stripping empties it; with an empty metadata mapping the line is exactly
the Unknown Camera sentinel. -/
theorem c10_amended_nonempty :
    (∀ exif : PyDict, raw_model_of exif ≠ "" → camera_top_text exif ≠ "") ∧
    camera_top_text [] = "Unknown Camera" := by
  constructor
  · intro exif h
    have hmc : clean_model (raw_model_of exif) (make_of exif) ≠ "" := clean_model_ne _ h
    have hcam : camera_name_of (simple_make_of (make_of exif))
        (clean_model (raw_model_of exif) (make_of exif)) ≠ "" := by
      unfold camera_name_of
      split
      · exact sep_append_ne_empty _ _
      · exact hmc
    simp only [camera_top_text]
    split
    · exact append_ne_empty_left (append_ne_empty_left hcam)
    · exact hcam
  · decide

/-- C10 witness: the amended theorem at the make-only mapping, whose
camera line is Canon Unknown Camera. -/
theorem c10_witness :
    raw_model_of makeOnlyExif ≠ "" ∧ camera_top_text makeOnlyExif ≠ "" :=
  ⟨by decide, c10_amended_nonempty.1 makeOnlyExif (by decide)⟩

/-- C8 witness: the theorem at a .gif path. -/
theorem c8_witness :
    strLower (splitext "/t/clip.gif").2 ∉ rasterExts ∧
    strLower (splitext "/t/clip.gif").2 ∉ rawExts ∧
    (open_image exampleWorld "/t/clip.gif" = .ok (none, []) ∧
     add_frame exampleWorld "/t/clip.gif" none = .ok none) :=
  ⟨by decide, by decide,
   c8_unsupported_ext exampleWorld "/t/clip.gif" none (by decide) (by decide)⟩

end DVScripts
